import Mathlib

/-!
Verification of the multi-source OCR result aggregation logic of the
ForgeCAD repository (Python), as a shallow embedding in Lean 4.

Embedded code:
* scripts/comprehensive_ocr_pipeline.py: combine_results (the aggregation
  step) and the dict-building part of comprehensive_analysis (which decides
  which per-source results are handed to combine_results);
* modules/comprehensive_ai_ocr.py: the success_rate computation of
  comprehensive_analysis;
* modules/data_pipeline.py: _calculate_ocr_confidence;
* cadly_ultimate_integration.py: _calculate_comprehensive_quality_score;
* modules/enhanced_symbol_detection.py: the line-orientation classification
  inside _detect_lines.

Python dicts are embedded as insertion-ordered association lists
(List (String × _)); dict assignment d[k] = v is dictInsert (replace in
place if the key exists, else append), matching CPython semantics.  Python
floats are modelled as exact rationals (Rat); all arithmetic relevant to the
claims is exact in both models.  Optional dict keys become Option fields,
and .get(k, default) becomes Option.getD.
-/

namespace ForgeCAD

/-- The value stored under the 'shapes' key of a yolo result dict:
combine_results reads the inner 'shapes' list and 'total_shapes' count. -/
structure ShapesField where
  shapes : Option (List String) := none
  total_shapes : Option Nat := none
deriving Repr, DecidableEq

/-- The value stored under the 'lines' key of a yolo result dict. -/
structure LinesField where
  lines : Option (List String) := none
  total_lines : Option Nat := none
deriving Repr, DecidableEq

/-- The value stored under the 'yolo' key of a yolo result dict. -/
structure YoloField where
  total_detections : Option Nat := none
deriving Repr, DecidableEq

/-- One per-source result dict as probed by combine_results: each Option
field models presence of the corresponding key.  The 'error' key is what
comprehensive_analysis checks before handing the result to combine_results. -/
structure MethodResult where
  extracted_text : Option String := none
  text : Option String := none
  total_detections : Option Nat := none
  shapes : Option ShapesField := none
  lines : Option LinesField := none
  yolo : Option YoloField := none
  error : Option String := none
deriving Repr, DecidableEq

/-- One entry of the combined 'all_text' list (keys 'method', 'text', 'type'). -/
structure TextEntry where
  method : String
  text : String
  type : String
deriving Repr, DecidableEq

/-- One value of the combined 'method_summary' dict.  The constructor
carries the 'type' tag of the Python dict; note that no constructor has an
error field: combine_results never records errors in the ledger. -/
inductive SummaryEntry where
  | printed_text (detections : Nat)
  | handwritten_text (text_found : Bool)
  | mixed_text (detections : Nat)
  | visual_elements (shapes : Nat) (lines : Nat) (objects : Nat)
deriving Repr, DecidableEq

/-- The dict built and returned by combine_results. -/
structure Combined where
  all_text : List TextEntry := []
  shapes_detected : List String := []
  lines_detected : List String := []
  confidence_scores : List (String × Rat) := []
  method_summary : List (String × SummaryEntry) := []
deriving Repr, DecidableEq

/-- Python str.strip() with no arguments: drop leading and trailing
whitespace.  (Defined by structural recursion over the character list so
that concrete instances evaluate; Lean's String.trim is extensionally the
same operation but is defined by well-founded recursion.) -/
def pyStrip (s : String) : String :=
  String.mk (((s.data.dropWhile Char.isWhitespace).reverse.dropWhile
    Char.isWhitespace).reverse)

/-- CPython dict assignment d[k] = v on an insertion-ordered association
list: replace the value in place when the key exists, else append. -/
def dictInsert {α : Type} (d : List (String × α)) (k : String) (v : α) :
    List (String × α) :=
  if d.any (fun p => p.1 == k) then
    d.map (fun p => if p.1 = k then (k, v) else p)
  else
    d ++ [(k, v)]

/-- The body of the loop of combine_results
(scripts/comprehensive_ocr_pipeline.py, lines 200-252), acting on the
accumulator dict for one (method, result) item of the input dict. -/
def combineStep (combined : Combined) (kv : String × MethodResult) : Combined :=
  let method := kv.1
  let result := kv.2
  if method = "tesseract" then
    let c1 :=
      match result.extracted_text with
      | some t =>
          if pyStrip t ≠ "" then
            { combined with all_text := (combined.all_text ++
                [({ method := "tesseract", text := pyStrip t, type := "printed" } : TextEntry)]) }
          else combined
      | none => combined
    { c1 with method_summary := (dictInsert c1.method_summary "tesseract"
        (SummaryEntry.printed_text (result.total_detections.getD 0))) }
  else if method = "trocr" then
    let c1 :=
      match result.text with
      | some t =>
          if pyStrip t ≠ "" then
            { combined with all_text := (combined.all_text ++
                [({ method := "trocr", text := pyStrip t, type := "handwritten" } : TextEntry)]) }
          else combined
      | none => combined
    { c1 with method_summary := (dictInsert c1.method_summary "trocr"
        (SummaryEntry.handwritten_text (pyStrip (result.text.getD "") != ""))) }
  else if method = "google_vision" then
    let c1 :=
      match result.text with
      | some t =>
          if pyStrip t ≠ "" then
            { combined with all_text := (combined.all_text ++
                [({ method := "google_vision", text := pyStrip t, type := "mixed" } : TextEntry)]) }
          else combined
      | none => combined
    { c1 with method_summary := (dictInsert c1.method_summary "google_vision"
        (SummaryEntry.mixed_text (result.total_detections.getD 0))) }
  else if method = "yolo" then
    let c1 :=
      match result.shapes with
      | some sf =>
          match sf.shapes with
          | some l => { combined with shapes_detected := l }
          | none => combined
      | none => combined
    let c2 :=
      match result.lines with
      | some lf =>
          match lf.lines with
          | some l => { c1 with lines_detected := l }
          | none => c1
      | none => c1
    { c2 with method_summary := (dictInsert c2.method_summary "yolo"
        (SummaryEntry.visual_elements
          (match result.shapes with | some sf => sf.total_shapes.getD 0 | none => 0)
          (match result.lines with | some lf => lf.total_lines.getD 0 | none => 0)
          (match result.yolo with | some yf => yf.total_detections.getD 0 | none => 0))) }
  else combined

/-- combine_results (scripts/comprehensive_ocr_pipeline.py, lines 190-254):
fold the loop body over the items of the input dict, starting from the
freshly initialized combined dict. -/
def combine_results (method_results : List (String × MethodResult)) : Combined :=
  method_results.foldl combineStep {}

/-- The 'all_text' entry one item of the input dict contributes, read off
the branches of combine_results (none when the method is unrecognized or
the probed text key is missing or blank after strip). -/
def textContrib (kv : String × MethodResult) : Option TextEntry :=
  if kv.1 = "tesseract" then
    match kv.2.extracted_text with
    | some t =>
        if pyStrip t ≠ "" then
          some { method := "tesseract", text := pyStrip t, type := "printed" }
        else none
    | none => none
  else if kv.1 = "trocr" then
    match kv.2.text with
    | some t =>
        if pyStrip t ≠ "" then
          some { method := "trocr", text := pyStrip t, type := "handwritten" }
        else none
    | none => none
  else if kv.1 = "google_vision" then
    match kv.2.text with
    | some t =>
        if pyStrip t ≠ "" then
          some { method := "google_vision", text := pyStrip t, type := "mixed" }
        else none
    | none => none
  else none

/-- The list one item of the input dict ASSIGNS to 'shapes_detected'
(only the 'yolo' branch of combine_results touches it). -/
def shapesContrib (kv : String × MethodResult) : Option (List String) :=
  if kv.1 = "yolo" then
    match kv.2.shapes with
    | some sf => sf.shapes
    | none => none
  else none

/-- The list one item of the input dict ASSIGNS to 'lines_detected'
(only the 'yolo' branch of combine_results touches it). -/
def linesContrib (kv : String × MethodResult) : Option (List String) :=
  if kv.1 = "yolo" then
    match kv.2.lines with
    | some lf => lf.lines
    | none => none
  else none

/-- The 'method_summary' entry one item of the input dict writes (none for
an unrecognized method name). -/
def summaryContrib (kv : String × MethodResult) : Option (String × SummaryEntry) :=
  if kv.1 = "tesseract" then
    some ("tesseract", SummaryEntry.printed_text (kv.2.total_detections.getD 0))
  else if kv.1 = "trocr" then
    some ("trocr", SummaryEntry.handwritten_text (pyStrip (kv.2.text.getD "") != ""))
  else if kv.1 = "google_vision" then
    some ("google_vision", SummaryEntry.mixed_text (kv.2.total_detections.getD 0))
  else if kv.1 = "yolo" then
    some ("yolo", SummaryEntry.visual_elements
      (match kv.2.shapes with | some sf => sf.total_shapes.getD 0 | none => 0)
      (match kv.2.lines with | some lf => lf.total_lines.getD 0 | none => 0)
      (match kv.2.yolo with | some yf => yf.total_detections.getD 0 | none => 0))
  else none

/-- The four method names combine_results recognizes. -/
def recognizedMethods : List String := ["tesseract", "trocr", "google_vision", "yolo"]

/-- The successive writes to 'method_summary' performed by combine_results,
as a fold of dict assignments. -/
def summaryFold (d : List (String × SummaryEntry))
    (rs : List (String × MethodResult)) : List (String × SummaryEntry) :=
  rs.foldl
    (fun d e =>
      match summaryContrib e with
      | some kv => dictInsert d kv.1 kv.2
      | none => d) d

/-- Availability flags of comprehensive_analysis
(scripts/comprehensive_ocr_pipeline.py, lines 125-174): which of the four
engines are attempted besides tesseract (always attempted). -/
structure PipelineSetup where
  trocr_model_loaded : Bool
  yolo_model_loaded : Bool
  use_google_vision : Bool
deriving Repr, DecidableEq

/-- How many sources comprehensive_analysis attempts: tesseract always,
trocr and yolo when their models are loaded, google_vision when enabled. -/
def attemptedCount (s : PipelineSetup) : Nat :=
  1 + (if s.trocr_model_loaded then 1 else 0)
    + (if s.yolo_model_loaded then 1 else 0)
    + (if s.use_google_vision then 1 else 0)

/-- The dict results['results'] that comprehensive_analysis hands to
combine_results: each attempted source's result is inserted only when it
carries no 'error' key; failed sources are silently dropped. -/
def pipelineResults (s : PipelineSetup)
    (tesseract_result trocr_result yolo_result gv_result : MethodResult) :
    List (String × MethodResult) :=
  (if tesseract_result.error = none then [("tesseract", tesseract_result)] else []) ++
  (if s.trocr_model_loaded ∧ trocr_result.error = none then
      [("trocr", trocr_result)] else []) ++
  (if s.yolo_model_loaded ∧ yolo_result.error = none then
      [("yolo", yolo_result)] else []) ++
  (if s.use_google_vision ∧ gv_result.error = none then
      [("google_vision", gv_result)] else [])

/-- One entry of results['api_results'] in modules/comprehensive_ai_ocr.py
and of ocr_results['api_results'] in modules/data_pipeline.py, with the
keys those modules probe: 'status', 'confidence', 'tokens_used'. -/
structure ApiResult where
  status : Option String := none
  confidence : Option Rat := none
  tokens_used : Option Nat := none
deriving Repr, DecidableEq

/-- successful_apis (modules/comprehensive_ai_ocr.py, line 544): the number
of api_results entries whose 'status' equals 'success'. -/
def successful_apis (api_results : List (String × ApiResult)) : Nat :=
  (api_results.filter (fun p => p.2.status == some "success")).length

/-- success_rate (modules/comprehensive_ai_ocr.py, line 553):
(successful_apis / total_apis) * 100 if total_apis > 0 else 0. -/
def success_rate (api_results : List (String × ApiResult)) : Rat :=
  if api_results.length > 0 then
    ((successful_apis api_results : Rat) / (api_results.length : Rat)) * 100
  else 0

/-- The confidence one api_results entry contributes in
_calculate_ocr_confidence (modules/data_pipeline.py, lines 655-670): a
non-success contributes nothing; a success contributes its reported
'confidence' when the key is present, else 0.8 when tokens_used > 0
(AI-based OCR), else 0.6 (default for traditional OCR). -/
def confContrib (result : ApiResult) : Option Rat :=
  if result.status = some "success" then
    match result.confidence with
    | some c => some c
    | none =>
        if result.tokens_used.getD 0 > 0 then some (8 / 10 : Rat)
        else some (6 / 10 : Rat)
  else none

/-- _calculate_ocr_confidence (modules/data_pipeline.py, lines 655-670):
the plain arithmetic mean of the collected confidences, 0.0 when none. -/
def _calculate_ocr_confidence (api_results : List (String × ApiResult)) : Rat :=
  let confidences := api_results.filterMap (fun p => confContrib p.2)
  if confidences.length > 0 then
    confidences.sum / (confidences.length : Rat)
  else 0

/-- The four leaves of structured_data that
_calculate_comprehensive_quality_score reads
(cadly_ultimate_integration.py, lines 247-281): the dict paths are
ocr_analysis.api_results_summary.total_apis_used / .successful_apis,
symbol_analysis.performance.total_elements_detected,
semantic_analysis.performance.average_confidence and
technical_data.quality_metrics.technical_content_richness; each Option
models the key chain being present. -/
structure StructuredData where
  total_apis_used : Option Nat := none
  successful_apis : Option Nat := none
  total_elements_detected : Option Nat := none
  average_confidence : Option Rat := none
  technical_content_richness : Option Nat := none
deriving Repr, DecidableEq

/-- _calculate_comprehensive_quality_score (cadly_ultimate_integration.py,
lines 247-281): a weighted sum of up to four section scores, each appended
only when its gate value is positive; 0.5 when no section contributed. -/
def _calculate_comprehensive_quality_score (d : StructuredData) : Rat :=
  let scores :=
    (if d.total_apis_used.getD 0 > 0 then
        [((d.successful_apis.getD 0 : Rat) / (d.total_apis_used.getD 1 : Rat)) * (3 / 10)]
      else []) ++
    (if d.total_elements_detected.getD 0 > 0 then
        [(min ((d.total_elements_detected.getD 0 : Rat) / 20) 1) * (1 / 4)]
      else []) ++
    (if d.average_confidence.getD 0 > 0 then
        [(d.average_confidence.getD 0) * (35 / 100)]
      else []) ++
    (if d.technical_content_richness.getD 0 > 0 then
        [(min ((d.technical_content_richness.getD 0 : Rat) / 15) 1) * (1 / 10)]
      else [])
  if scores ≠ [] then scores.sum else 1 / 2

/-- The line-orientation classification of _detect_lines
(modules/enhanced_symbol_detection.py, lines 243-252), as a function of
the already-computed angle in degrees. -/
def classify_orientation (angle : Rat) : String :=
  if |angle| < 10 ∨ |angle| > 170 then "horizontal"
  else if 80 < |angle| ∧ |angle| < 100 then "vertical"
  else "diagonal"

/-- One pass of the combine_results loop, characterized field by field
through the per-item contribution functions. -/
theorem combineStep_eq (c : Combined) (kv : String × MethodResult) :
    combineStep c kv =
      { all_text := c.all_text ++ (textContrib kv).toList
        shapes_detected := (shapesContrib kv).getD c.shapes_detected
        lines_detected := (linesContrib kv).getD c.lines_detected
        confidence_scores := c.confidence_scores
        method_summary :=
          match summaryContrib kv with
          | some kv2 => dictInsert c.method_summary kv2.1 kv2.2
          | none => c.method_summary } := by
  obtain ⟨m, r⟩ := kv
  by_cases h1 : m = "tesseract"
  · subst h1
    rcases he : r.extracted_text with _ | t
    · simp +decide [combineStep, textContrib, shapesContrib, linesContrib, summaryContrib, he]
    · by_cases ht : pyStrip t = "" <;>
        simp +decide [combineStep, textContrib, shapesContrib, linesContrib, summaryContrib,
          he, ht]
  · by_cases h2 : m = "trocr"
    · subst h2
      rcases he : r.text with _ | t
      · simp +decide [combineStep, textContrib, shapesContrib, linesContrib, summaryContrib, he]
      · by_cases ht : pyStrip t = "" <;>
          simp +decide [combineStep, textContrib, shapesContrib, linesContrib, summaryContrib,
            he, ht]
    · by_cases h3 : m = "google_vision"
      · subst h3
        rcases he : r.text with _ | t
        · simp +decide [combineStep, textContrib, shapesContrib, linesContrib, summaryContrib,
            he]
        · by_cases ht : pyStrip t = "" <;>
            simp +decide [combineStep, textContrib, shapesContrib, linesContrib, summaryContrib,
              he, ht]
      · by_cases h4 : m = "yolo"
        · subst h4
          rcases hs : r.shapes with _ | sf
          · rcases hl : r.lines with _ | lf
            · simp +decide [combineStep, textContrib, shapesContrib, linesContrib,
                summaryContrib, hs, hl]
            · rcases hll : lf.lines with _ | ll <;>
                simp +decide [combineStep, textContrib, shapesContrib, linesContrib,
                  summaryContrib, hs, hl, hll]
          · rcases hss : sf.shapes with _ | sl <;> rcases hl : r.lines with _ | lf
            · simp +decide [combineStep, textContrib, shapesContrib, linesContrib,
                summaryContrib, hs, hss, hl]
            · rcases hll : lf.lines with _ | ll <;>
                simp +decide [combineStep, textContrib, shapesContrib, linesContrib,
                  summaryContrib, hs, hss, hl, hll]
            · simp +decide [combineStep, textContrib, shapesContrib, linesContrib,
                summaryContrib, hs, hss, hl]
            · rcases hll : lf.lines with _ | ll <;>
                simp +decide [combineStep, textContrib, shapesContrib, linesContrib,
                  summaryContrib, hs, hss, hl, hll]
        · simp [combineStep, textContrib, shapesContrib, linesContrib, summaryContrib,
            h1, h2, h3, h4]

/-- The all_text field accumulated by the fold is the ordered list of
per-item text contributions appended to the accumulator's. -/
theorem foldl_all_text (rs : List (String × MethodResult)) (c : Combined) :
    (rs.foldl combineStep c).all_text = c.all_text ++ rs.filterMap textContrib := by
  induction rs generalizing c with
  | nil => simp
  | cons e rs ih =>
      rw [List.foldl_cons, ih, combineStep_eq]
      rcases h : textContrib e with _ | t <;>
        simp [h, List.filterMap_cons]

/-- Replacing a default through a chain of optional overwrites keeps only
the last overwrite. -/
theorem getLast_cons_getD {α : Type} (a d : α) (xs : List α) :
    ((a :: xs).getLast?).getD d = (xs.getLast?).getD a := by
  induction xs generalizing a d with
  | nil => rfl
  | cons b xs ih => rw [List.getLast?_cons_cons, ih b d, ih b a]

/-- The shapes_detected field after the fold is the LAST shapes assignment
performed by a yolo item, or the accumulator's value when none assigns. -/
theorem foldl_shapes (rs : List (String × MethodResult)) (c : Combined) :
    (rs.foldl combineStep c).shapes_detected
      = ((rs.filterMap shapesContrib).getLast?).getD c.shapes_detected := by
  induction rs generalizing c with
  | nil => simp
  | cons e rs ih =>
      rw [List.foldl_cons, ih, combineStep_eq]
      rcases h : shapesContrib e with _ | l
      · simp [h, List.filterMap_cons]
      · simp [h, List.filterMap_cons, getLast_cons_getD]

/-- The lines_detected field after the fold is the LAST lines assignment
performed by a yolo item, or the accumulator's value when none assigns. -/
theorem foldl_lines (rs : List (String × MethodResult)) (c : Combined) :
    (rs.foldl combineStep c).lines_detected
      = ((rs.filterMap linesContrib).getLast?).getD c.lines_detected := by
  induction rs generalizing c with
  | nil => simp
  | cons e rs ih =>
      rw [List.foldl_cons, ih, combineStep_eq]
      rcases h : linesContrib e with _ | l
      · simp [h, List.filterMap_cons]
      · simp [h, List.filterMap_cons, getLast_cons_getD]

/-- The method_summary field after the fold is the chain of dict
assignments of the recognized items. -/
theorem foldl_summary (rs : List (String × MethodResult)) (c : Combined) :
    (rs.foldl combineStep c).method_summary = summaryFold c.method_summary rs := by
  induction rs generalizing c with
  | nil => rfl
  | cons e rs ih =>
      rw [List.foldl_cons, ih, combineStep_eq]
      rcases h : summaryContrib e with _ | kv2 <;>
        simp [summaryFold, h, List.foldl_cons]

/-- The confidence_scores dict is initialized empty and never written. -/
theorem foldl_conf (rs : List (String × MethodResult)) (c : Combined) :
    (rs.foldl combineStep c).confidence_scores = c.confidence_scores := by
  induction rs generalizing c with
  | nil => rfl
  | cons e rs ih => rw [List.foldl_cons, ih, combineStep_eq]

/-- The all_text list of combine_results is exactly the input-ordered list
of per-item text contributions. -/
theorem combine_results_all_text (rs : List (String × MethodResult)) :
    (combine_results rs).all_text = rs.filterMap textContrib := by
  rw [combine_results, foldl_all_text]
  rfl

/-- The shapes_detected list of combine_results is the last yolo shapes
assignment, or empty when there is none. -/
theorem combine_results_shapes (rs : List (String × MethodResult)) :
    (combine_results rs).shapes_detected
      = ((rs.filterMap shapesContrib).getLast?).getD [] := by
  rw [combine_results, foldl_shapes]

/-- The lines_detected list of combine_results is the last yolo lines
assignment, or empty when there is none. -/
theorem combine_results_lines (rs : List (String × MethodResult)) :
    (combine_results rs).lines_detected
      = ((rs.filterMap linesContrib).getLast?).getD [] := by
  rw [combine_results, foldl_lines]

/-- The method_summary dict of combine_results is the chain of ledger
assignments starting from the empty dict. -/
theorem combine_results_summary (rs : List (String × MethodResult)) :
    (combine_results rs).method_summary = summaryFold [] rs := by
  rw [combine_results, foldl_summary]

/-- A key absent from an association list makes the any-probe of
dictInsert come out false. -/
theorem any_key_eq_false {α : Type} (d : List (String × α)) (k : String)
    (h : k ∉ d.map Prod.fst) : d.any (fun p => p.1 == k) = false := by
  simp only [List.any_eq_false, beq_iff_eq]
  intro p hp hpk
  exact h (List.mem_map.mpr ⟨p, hp, hpk⟩)

/-- dictInsert with a fresh key appends the binding at the end. -/
theorem dictInsert_of_not_mem {α : Type} (d : List (String × α)) (k : String) (v : α)
    (h : k ∉ d.map Prod.fst) : dictInsert d k v = d ++ [(k, v)] := by
  rw [dictInsert, if_neg]
  simp [any_key_eq_false d k h]

/-- dictInsert with a fresh key grows the dict by one entry. -/
theorem dictInsert_length_of_not_mem {α : Type} (d : List (String × α)) (k : String)
    (v : α) (h : k ∉ d.map Prod.fst) : (dictInsert d k v).length = d.length + 1 := by
  rw [dictInsert_of_not_mem d k v h]
  simp

/-- dictInsert with a fresh key appends the key to the key list. -/
theorem dictInsert_keys_of_not_mem {α : Type} (d : List (String × α)) (k : String)
    (v : α) (h : k ∉ d.map Prod.fst) :
    (dictInsert d k v).map Prod.fst = d.map Prod.fst ++ [k] := by
  rw [dictInsert_of_not_mem d k v h]
  simp

/-- The assigned key is a key of the dict after dictInsert. -/
theorem mem_keys_dictInsert_self {α : Type} (d : List (String × α)) (k : String)
    (v : α) : k ∈ (dictInsert d k v).map Prod.fst := by
  by_cases h : k ∈ d.map Prod.fst
  · obtain ⟨p, hp, hpk⟩ := List.mem_map.mp h
    rw [dictInsert, if_pos]
    · refine List.mem_map.mpr ⟨(k, v), List.mem_map.mpr ⟨p, hp, ?_⟩, rfl⟩
      simp [hpk]
    · simp only [List.any_eq_true, beq_iff_eq]
      exact ⟨p, hp, hpk⟩
  · rw [dictInsert_of_not_mem d k v h]
    simp

/-- dictInsert never removes a key that was already present. -/
theorem mem_keys_dictInsert_of_mem {α : Type} (d : List (String × α)) (k : String)
    (v : α) (k' : String) (h : k' ∈ d.map Prod.fst) :
    k' ∈ (dictInsert d k v).map Prod.fst := by
  rw [dictInsert]
  split
  · obtain ⟨p, hp, hpk⟩ := List.mem_map.mp h
    by_cases hpe : p.1 = k
    · refine List.mem_map.mpr ⟨(k, v), List.mem_map.mpr ⟨p, hp, ?_⟩, ?_⟩
      · simp [hpe]
      · rw [← hpk, hpe]
    · refine List.mem_map.mpr ⟨p, List.mem_map.mpr ⟨p, hp, ?_⟩, hpk⟩
      simp [hpe]
  · exact List.mem_map.mpr
      (by
        obtain ⟨p, hp, hpk⟩ := List.mem_map.mp h
        exact ⟨p, List.mem_append_left _ hp, hpk⟩)

/-- summaryFold on the empty item list is the identity. -/
theorem summaryFold_nil (d : List (String × SummaryEntry)) : summaryFold d [] = d := rfl

/-- summaryFold unfolds one item at a time. -/
theorem summaryFold_cons (d : List (String × SummaryEntry)) (e : String × MethodResult)
    (rs : List (String × MethodResult)) :
    summaryFold d (e :: rs) =
      summaryFold
        (match summaryContrib e with
          | some kv2 => dictInsert d kv2.1 kv2.2
          | none => d) rs := rfl

/-- A recognized method name always yields a ledger entry under its own
name. -/
theorem summaryContrib_recognized (e : String × MethodResult)
    (h : e.1 ∈ recognizedMethods) : ∃ v, summaryContrib e = some (e.1, v) := by
  obtain ⟨m, r⟩ := e
  simp only [recognizedMethods, List.mem_cons, List.not_mem_nil, or_false] at h
  rcases h with h | h | h | h <;> subst h <;> exact ⟨_, rfl⟩

/-- An unrecognized method name yields no ledger entry. -/
theorem summaryContrib_unrecognized (e : String × MethodResult)
    (h : e.1 ∉ recognizedMethods) : summaryContrib e = none := by
  obtain ⟨m, r⟩ := e
  simp only [recognizedMethods, List.mem_cons, List.not_mem_nil, or_false, not_or] at h
  simp [summaryContrib, h.1, h.2.1, h.2.2.1, h.2.2.2]

/-- Only the yolo branch assigns shapes_detected. -/
theorem shapesContrib_of_ne (e : String × MethodResult) (h : e.1 ≠ "yolo") :
    shapesContrib e = none := by
  simp [shapesContrib, h]

/-- Only the yolo branch assigns lines_detected. -/
theorem linesContrib_of_ne (e : String × MethodResult) (h : e.1 ≠ "yolo") :
    linesContrib e = none := by
  simp [linesContrib, h]

/-- summaryFold distributes over list append. -/
theorem summaryFold_append (d : List (String × SummaryEntry))
    (l1 l2 : List (String × MethodResult)) :
    summaryFold d (l1 ++ l2) = summaryFold (summaryFold d l1) l2 := by
  simp [summaryFold, List.foldl_append]

/-- Keys already in the ledger survive any further summaryFold writes. -/
theorem summaryFold_mem_keys (rs : List (String × MethodResult)) :
    ∀ (d : List (String × SummaryEntry)) (k : String),
      k ∈ d.map Prod.fst → k ∈ (summaryFold d rs).map Prod.fst := by
  induction rs with
  | nil => intro d k h; exact h
  | cons e rs ih =>
      intro d k h
      rw [summaryFold_cons]
      cases hc : summaryContrib e with
      | none => exact ih d k h
      | some kv2 => exact ih _ k (mem_keys_dictInsert_of_mem d kv2.1 kv2.2 k h)

/-- Folding the ledger writes of a list of distinct recognized methods over
a ledger none of them touches adds exactly one entry per method. -/
theorem summaryFold_length (rs : List (String × MethodResult)) :
    ∀ (d : List (String × SummaryEntry)),
      (∀ p ∈ rs, p.1 ∈ recognizedMethods) →
      (rs.map Prod.fst).Nodup →
      (∀ p ∈ rs, p.1 ∉ d.map Prod.fst) →
      (summaryFold d rs).length = d.length + rs.length := by
  induction rs with
  | nil => intro d _ _ _; simp [summaryFold_nil]
  | cons e rs ih =>
      intro d hrec hnd hdisj
      obtain ⟨v, hv⟩ := summaryContrib_recognized e (hrec e (List.mem_cons_self e rs))
      have hkd : e.1 ∉ d.map Prod.fst := hdisj e (List.mem_cons_self e rs)
      rw [List.map_cons, List.nodup_cons] at hnd
      obtain ⟨he1, hnd'⟩ := hnd
      have hdisj' : ∀ p ∈ rs, p.1 ∉ (dictInsert d e.1 v).map Prod.fst := by
        intro p hp
        rw [dictInsert_keys_of_not_mem d e.1 v hkd]
        simp only [List.mem_append, List.mem_singleton, not_or]
        refine ⟨hdisj p (List.mem_cons_of_mem e hp), fun hpe => he1 ?_⟩
        exact hpe ▸ List.mem_map.mpr ⟨p, hp, rfl⟩
      rw [summaryFold_cons, hv,
        ih (dictInsert d e.1 v) (fun p hp => hrec p (List.mem_cons_of_mem e hp)) hnd' hdisj',
        dictInsert_length_of_not_mem d e.1 v hkd, List.length_cons]
      omega

/-- Two lists that are permutations of each other and have at most one
element are equal. -/
theorem perm_short_eq {α : Type} (l1 l2 : List α) (h : l1.Perm l2)
    (hl : l1.length ≤ 1) : l1 = l2 := by
  cases l1 with
  | nil => exact h.nil_eq
  | cons a l =>
      cases l with
      | nil => exact (List.perm_singleton.mp h.symm).symm
      | cons b l => simp at hl

/-- Under distinct keys, at most one item of the input dict can assign
shapes_detected (the one keyed yolo). -/
theorem shapes_filterMap_le_one (rs : List (String × MethodResult)) :
    (rs.map Prod.fst).Nodup → (rs.filterMap shapesContrib).length ≤ 1 := by
  induction rs with
  | nil => intro _; simp
  | cons e rs ih =>
      intro hnd
      rw [List.map_cons, List.nodup_cons] at hnd
      obtain ⟨he1, hnd'⟩ := hnd
      cases h : shapesContrib e with
      | none => rw [List.filterMap_cons, h]; exact ih hnd'
      | some l =>
          have hk : e.1 = "yolo" := by
            by_contra hne
            rw [shapesContrib_of_ne e hne] at h
            cases h
          have hrest : rs.filterMap shapesContrib = [] := by
            rw [List.filterMap_eq_nil_iff]
            intro p hp
            refine shapesContrib_of_ne p (fun hpk => he1 ?_)
            rw [hk, ← hpk]
            exact List.mem_map.mpr ⟨p, hp, rfl⟩
          rw [List.filterMap_cons, h, hrest]
          simp

/-- Under distinct keys, at most one item of the input dict can assign
lines_detected (the one keyed yolo). -/
theorem lines_filterMap_le_one (rs : List (String × MethodResult)) :
    (rs.map Prod.fst).Nodup → (rs.filterMap linesContrib).length ≤ 1 := by
  induction rs with
  | nil => intro _; simp
  | cons e rs ih =>
      intro hnd
      rw [List.map_cons, List.nodup_cons] at hnd
      obtain ⟨he1, hnd'⟩ := hnd
      cases h : linesContrib e with
      | none => rw [List.filterMap_cons, h]; exact ih hnd'
      | some l =>
          have hk : e.1 = "yolo" := by
            by_contra hne
            rw [linesContrib_of_ne e hne] at h
            cases h
          have hrest : rs.filterMap linesContrib = [] := by
            rw [List.filterMap_eq_nil_iff]
            intro p hp
            refine linesContrib_of_ne p (fun hpk => he1 ?_)
            rw [hk, ← hpk]
            exact List.mem_map.mpr ⟨p, hp, rfl⟩
          rw [List.filterMap_cons, h, hrest]
          simp

/-- C6: the derived line orientation is horizontal exactly when the
absolute angle is below 10 degrees or above 170 degrees, vertical exactly
when it lies strictly between 80 and 100 degrees, and diagonal in every
other case, including at the boundary angles 10, 80, 100 and 170 degrees
(the comparisons of the source are strict). -/
theorem C6_line_orientation_thresholds (a : Rat) :
    (classify_orientation a = "horizontal" ↔ (|a| < 10 ∨ |a| > 170))
    ∧ (classify_orientation a = "vertical" ↔ (80 < |a| ∧ |a| < 100))
    ∧ (classify_orientation a = "diagonal" ↔
        (¬(|a| < 10 ∨ |a| > 170) ∧ ¬(80 < |a| ∧ |a| < 100)))
    ∧ classify_orientation 10 = "diagonal"
    ∧ classify_orientation 80 = "diagonal"
    ∧ classify_orientation 100 = "diagonal"
    ∧ classify_orientation 170 = "diagonal" := by
  have hhoriz : classify_orientation a = "horizontal" ↔ (|a| < 10 ∨ |a| > 170) := by
    rw [classify_orientation]
    split_ifs with h1 h2
    · simp [h1]
    · simp +decide [h1]
    · simp +decide [h1]
  have hvert : classify_orientation a = "vertical" ↔ (80 < |a| ∧ |a| < 100) := by
    rw [classify_orientation]
    split_ifs with h1 h2
    · have hnv : ¬(80 < |a| ∧ |a| < 100) := by
        rintro ⟨hx, hy⟩
        rcases h1 with h | h <;> linarith
      simp +decide [hnv]
    · simp +decide [h2]
    · simp +decide [h2]
  have hdiag : classify_orientation a = "diagonal" ↔
      (¬(|a| < 10 ∨ |a| > 170) ∧ ¬(80 < |a| ∧ |a| < 100)) := by
    rw [classify_orientation]
    split_ifs with h1 h2
    · simp +decide [h1]
    · simp +decide [h2]
    · simp +decide [h1, h2]
  refine ⟨hhoriz, hvert, hdiag, ?_, ?_, ?_, ?_⟩ <;>
    norm_num [classify_orientation, abs]

/-- C10: combine_results silently ignores any input entry whose method name
is not one of the four hardcoded names tesseract, trocr, google_vision and
yolo: the aggregated output (all_text, shapes_detected, lines_detected,
confidence_scores and method_summary alike) is identical to the output on
the input with that entry removed, however much text or geometry the entry
carries. -/
theorem C10_unknown_method_ignored (rs1 rs2 : List (String × MethodResult))
    (k : String) (r : MethodResult)
    (h1 : k ≠ "tesseract") (h2 : k ≠ "trocr") (h3 : k ≠ "google_vision")
    (h4 : k ≠ "yolo") :
    combine_results (rs1 ++ (k, r) :: rs2) = combine_results (rs1 ++ rs2) := by
  have hstep : ∀ c, combineStep c (k, r) = c := by
    intro c
    simp [combineStep, h1, h2, h3, h4]
  rw [combine_results, combine_results, List.foldl_append, List.foldl_append,
    List.foldl_cons, hstep]

/-- C10 witness: an entry named azure carrying text and shapes changes
nothing in the aggregated output. -/
theorem C10_unknown_method_ignored_witness :
    combine_results ([("tesseract", ({ extracted_text := some "DIM 150mm" } : MethodResult))]
        ++ ("azure", ({ text := some "hello", shapes := some { shapes := some ["circle"] } } : MethodResult)) :: [])
      = combine_results
          ([("tesseract", ({ extracted_text := some "DIM 150mm" } : MethodResult))] ++ []) :=
  C10_unknown_method_ignored _ _ _ _ (by decide) (by decide) (by decide) (by decide)

/-- C1 counterexample: with only tesseract attempted and its extraction
failing, comprehensive_analysis hands combine_results an empty dict, so
method_summary has 0 entries while 1 source was attempted — the failed
source gets no ledger entry at all (and no ledger entry of combine_results
can carry an error: no branch ever writes one). -/
theorem C1_failed_source_missing_from_ledger :
    (combine_results (pipelineResults ⟨false, false, false⟩
        { error := some "Tesseract failed: empty page" } {} {} {})).method_summary.length = 0
    ∧ attemptedCount ⟨false, false, false⟩ = 1 := by
  constructor <;> rfl

/-- C1 amended: the ledger is complete only for the dict that
comprehensive_analysis actually hands to combine_results — which contains
exactly the attempted sources that did NOT fail.  For any such input dict
(distinct keys, all among the four recognized names), method_summary has
exactly one entry per entry of the dict, in particular it is empty exactly
when the dict is empty; failed sources are dropped upstream and no entry
records an error. -/
theorem C1_ledger_amended (rs : List (String × MethodResult))
    (hrec : ∀ p ∈ rs, p.1 ∈ recognizedMethods)
    (hnd : (rs.map Prod.fst).Nodup) :
    (combine_results rs).method_summary.length = rs.length := by
  rw [combine_results_summary]
  have h := summaryFold_length rs [] hrec hnd (by simp)
  simpa using h

/-- C1 amended witness: a two-source successful input gets a two-entry
ledger. -/
theorem C1_ledger_amended_witness :
    (∀ p ∈ ([("tesseract", ({} : MethodResult)), ("yolo", ({} : MethodResult))] :
        List (String × MethodResult)), p.1 ∈ recognizedMethods)
    ∧ (combine_results [("tesseract", ({} : MethodResult)),
          ("yolo", ({} : MethodResult))]).method_summary.length
        = ([("tesseract", ({} : MethodResult)), ("yolo", ({} : MethodResult))] :
            List (String × MethodResult)).length :=
  ⟨by decide, C1_ledger_amended _ (by decide) (by decide)⟩

/-- C2 counterexample: one attempted source with SUCCESS status makes
success_rate equal to 100, not 1 — the value is a percentage and leaves
the claimed interval [0, 1]. -/
theorem C2_success_rate_is_percent :
    success_rate [("tesseract", { status := some "success" })] = 100
    ∧ ¬(success_rate [("tesseract", { status := some "success" })] ≤ 1) := by
  have h : success_rate [("tesseract", ({ status := some "success" } : ApiResult))] = 100 := by
    simp +decide [success_rate, successful_apis]
  refine ⟨h, ?_⟩
  rw [h]
  norm_num

/-- C2 amended: success_rate equals 100 times successes over attempts — a
percentage: it always lies in [0, 100], is exactly 0 on the empty input
(never an error and never NaN: the function is total), and on nonempty
input satisfies success_rate times attempts = successes times 100. -/
theorem C2_success_rate_amended (api_results : List (String × ApiResult)) :
    0 ≤ success_rate api_results
    ∧ success_rate api_results ≤ 100
    ∧ (api_results = [] → success_rate api_results = 0)
    ∧ (api_results ≠ [] →
        success_rate api_results * (api_results.length : Rat)
          = (successful_apis api_results : Rat) * 100) := by
  have hle : (successful_apis api_results : Rat) ≤ (api_results.length : Rat) := by
    exact_mod_cast List.length_filter_le _ api_results
  refine ⟨?_, ?_, ?_, ?_⟩
  · rw [success_rate]
    split
    · positivity
    · exact le_refl 0
  · rw [success_rate]
    split
    · rename_i h
      have hn : (0 : Rat) < (api_results.length : Rat) := by exact_mod_cast h
      have h1 : (successful_apis api_results : Rat) / (api_results.length : Rat) ≤ 1 :=
        (div_le_one hn).mpr hle
      calc (successful_apis api_results : Rat) / (api_results.length : Rat) * 100
          ≤ 1 * 100 := mul_le_mul_of_nonneg_right h1 (by norm_num)
        _ = 100 := one_mul 100
    · norm_num
  · intro h
    subst h
    rfl
  · intro h
    have hn0 : api_results.length ≠ 0 := fun hh => h (List.length_eq_zero.mp hh)
    have hnq : (api_results.length : Rat) ≠ 0 := by exact_mod_cast hn0
    rw [success_rate, if_pos (Nat.pos_of_ne_zero hn0)]
    field_simp

/-- C5 counterexample: two successful sources each carrying a shape list —
yolo with shapeA and tesseract with shapeB — yield shapes_detected equal to
just the yolo list: the aggregation assigns rather than concatenates, and a
non-yolo source's shapes are discarded outright. -/
theorem C5_shapes_replaced_not_concatenated :
    (combine_results [("yolo", { shapes := some { shapes := some ["shapeA"] } }),
        ("tesseract", { shapes := some { shapes := some ["shapeB"] } })]).shapes_detected
      = ["shapeA"]
    ∧ (["shapeA"] : List String) ≠ ["shapeA", "shapeB"] := by
  constructor <;> decide

/-- C5 amended: only the entry keyed yolo can contribute shapes or lines;
combine_results ASSIGNS that single entry's lists to shapes_detected and
lines_detected (so with the dict input's distinct keys the output equals
the yolo entry's lists verbatim, which coincides with concatenation only
because at most one source can contribute); shape or line items carried by
any other source are discarded. -/
theorem C5_yolo_assignment (rs1 rs2 : List (String × MethodResult)) (r : MethodResult)
    (sf : ShapesField) (lf : LinesField) (sl ll : List String)
    (hnd : ((rs1 ++ ("yolo", r) :: rs2).map Prod.fst).Nodup)
    (hs : r.shapes = some sf) (hss : sf.shapes = some sl)
    (hl : r.lines = some lf) (hll : lf.lines = some ll) :
    (combine_results (rs1 ++ ("yolo", r) :: rs2)).shapes_detected = sl
    ∧ (combine_results (rs1 ++ ("yolo", r) :: rs2)).lines_detected = ll := by
  rw [List.map_append, List.map_cons] at hnd
  have hmid := List.nodup_cons.mp (List.nodup_middle.mp hnd)
  have hy1 : ∀ p ∈ rs1, p.1 ≠ "yolo" := by
    intro p hp hpk
    exact hmid.1 (List.mem_append_left _ (hpk ▸ List.mem_map.mpr ⟨p, hp, rfl⟩))
  have hy2 : ∀ p ∈ rs2, p.1 ≠ "yolo" := by
    intro p hp hpk
    exact hmid.1 (List.mem_append_right _ (hpk ▸ List.mem_map.mpr ⟨p, hp, rfl⟩))
  have hf1s : rs1.filterMap shapesContrib = [] :=
    List.filterMap_eq_nil_iff.mpr (fun p hp => shapesContrib_of_ne p (hy1 p hp))
  have hf2s : rs2.filterMap shapesContrib = [] :=
    List.filterMap_eq_nil_iff.mpr (fun p hp => shapesContrib_of_ne p (hy2 p hp))
  have hf1l : rs1.filterMap linesContrib = [] :=
    List.filterMap_eq_nil_iff.mpr (fun p hp => linesContrib_of_ne p (hy1 p hp))
  have hf2l : rs2.filterMap linesContrib = [] :=
    List.filterMap_eq_nil_iff.mpr (fun p hp => linesContrib_of_ne p (hy2 p hp))
  have hcs : shapesContrib ("yolo", r) = some sl := by
    simp +decide [shapesContrib, hs, hss]
  have hcl : linesContrib ("yolo", r) = some ll := by
    simp +decide [linesContrib, hl, hll]
  constructor
  · rw [combine_results_shapes, List.filterMap_append, List.filterMap_cons, hcs, hf1s, hf2s]
    rfl
  · rw [combine_results_lines, List.filterMap_append, List.filterMap_cons, hcl, hf1l, hf2l]
    rfl

/-- C5 amended witness: tesseract plus one yolo entry carrying a circle and
a line; the output lists are exactly the yolo entry's. -/
theorem C5_yolo_assignment_witness :
    (combine_results ([("tesseract", ({} : MethodResult))] ++
        ("yolo", ({ shapes := some { shapes := some ["circle"] }, lines := some { lines := some ["lineA"] } } : MethodResult)) :: [])).shapes_detected
      = ["circle"]
    ∧ (combine_results ([("tesseract", ({} : MethodResult))] ++
        ("yolo", ({ shapes := some { shapes := some ["circle"] }, lines := some { lines := some ["lineA"] } } : MethodResult)) :: [])).lines_detected
      = ["lineA"] :=
  C5_yolo_assignment _ _ _ _ _ _ _ (by decide) rfl rfl rfl rfl

/-- C7: order preservation — all_text is exactly the input-ordered list of
per-entry text contributions (so the relative order of sources as supplied
by the caller is preserved and identical inputs give identical outputs);
permuting the input permutes all_text identically, and under the dict
input's distinct keys the shapes_detected and lines_detected lists (fed by
at most one source) are unchanged by permutation. -/
theorem C7_order_preservation (rs rs2 : List (String × MethodResult)) :
    (combine_results rs).all_text = rs.filterMap textContrib
    ∧ (rs.Perm rs2 → ((combine_results rs).all_text).Perm ((combine_results rs2).all_text))
    ∧ (rs.Perm rs2 → (rs.map Prod.fst).Nodup →
        (combine_results rs).shapes_detected = (combine_results rs2).shapes_detected
        ∧ (combine_results rs).lines_detected = (combine_results rs2).lines_detected) := by
  refine ⟨combine_results_all_text rs, ?_, ?_⟩
  · intro hperm
    rw [combine_results_all_text, combine_results_all_text]
    exact hperm.filterMap textContrib
  · intro hperm hnd
    constructor
    · rw [combine_results_shapes, combine_results_shapes,
        perm_short_eq _ _ (hperm.filterMap shapesContrib) (shapes_filterMap_le_one rs hnd)]
    · rw [combine_results_lines, combine_results_lines,
        perm_short_eq _ _ (hperm.filterMap linesContrib) (lines_filterMap_le_one rs hnd)]

/-- C8: success is content-blind — a tesseract entry present in the dict
(its call completed without error) whose extracted text strips to empty
contributes nothing to all_text yet still receives its method_summary
entry; and in the success_rate computation an entry whose status is
success raises the numerator by exactly one whatever its content. -/
theorem C8_success_content_blind
    (rs1 rs2 : List (String × MethodResult)) (r : MethodResult) (t : String)
    (he : r.extracted_text = some t) (ht : pyStrip t = "")
    (api1 api2 : List (String × ApiResult)) (nm : String) (a : ApiResult)
    (ha : a.status = some "success") :
    (combine_results (rs1 ++ ("tesseract", r) :: rs2)).all_text
        = (combine_results (rs1 ++ rs2)).all_text
    ∧ "tesseract" ∈
        ((combine_results (rs1 ++ ("tesseract", r) :: rs2)).method_summary.map Prod.fst)
    ∧ successful_apis (api1 ++ (nm, a) :: api2) = successful_apis (api1 ++ api2) + 1 := by
  have htc : textContrib ("tesseract", r) = none := by
    simp +decide [textContrib, he, ht]
  refine ⟨?_, ?_, ?_⟩
  · simp [combine_results_all_text, List.filterMap_append, List.filterMap_cons, htc]
  · rw [combine_results_summary, summaryFold_append]
    have hsc : summaryContrib ("tesseract", r)
        = some ("tesseract", SummaryEntry.printed_text (r.total_detections.getD 0)) := by
      simp +decide [summaryContrib]
    rw [summaryFold_cons, hsc]
    exact summaryFold_mem_keys rs2 _ "tesseract" (mem_keys_dictInsert_self _ _ _)
  · simp [successful_apis, List.filter_append, List.filter_cons, ha]
    omega

/-- C8 witness: tesseract succeeded with empty text; it is in the ledger,
absent from all_text, and counted in the success_rate numerator. -/
theorem C8_success_content_blind_witness :
    (combine_results ([] ++ ("tesseract", ({ extracted_text := some "" } : MethodResult))
          :: [])).all_text
        = (combine_results ([] ++ [])).all_text
    ∧ "tesseract" ∈
        ((combine_results ([] ++ ("tesseract", ({ extracted_text := some "" } : MethodResult))
            :: [])).method_summary.map Prod.fst)
    ∧ successful_apis ([] ++ ("tesseract", ({ status := some "success" } : ApiResult)) :: [])
        = successful_apis ([] ++ []) + 1 :=
  C8_success_content_blind [] [] _ "" rfl (by decide) [] [] "tesseract" _ rfl

/-- C9: failure isolation — toggling one entry of the input from SUCCESS to
FAILURE (which, per comprehensive_analysis, removes it from the dict handed
to combine_results) leaves every other entry's text contribution in
all_text unchanged and in the same order, leaves shapes_detected and
lines_detected unchanged when the toggled entry is not the yolo entry, and
empties them (removing only the toggled entry's own contribution) when it
is; only the ledger and the success statistics can otherwise differ. -/
theorem C9_failure_isolation (rs1 rs2 : List (String × MethodResult)) (k : String)
    (r : MethodResult)
    (hnd : ((rs1 ++ (k, r) :: rs2).map Prod.fst).Nodup) :
    (combine_results (rs1 ++ (k, r) :: rs2)).all_text
        = rs1.filterMap textContrib ++ ((textContrib (k, r)).toList ++ rs2.filterMap textContrib)
    ∧ (combine_results (rs1 ++ rs2)).all_text
        = rs1.filterMap textContrib ++ rs2.filterMap textContrib
    ∧ (k ≠ "yolo" →
        (combine_results (rs1 ++ (k, r) :: rs2)).shapes_detected
            = (combine_results (rs1 ++ rs2)).shapes_detected
        ∧ (combine_results (rs1 ++ (k, r) :: rs2)).lines_detected
            = (combine_results (rs1 ++ rs2)).lines_detected)
    ∧ (k = "yolo" →
        (combine_results (rs1 ++ rs2)).shapes_detected = []
        ∧ (combine_results (rs1 ++ rs2)).lines_detected = []) := by
  refine ⟨?_, ?_, ?_, ?_⟩
  · rw [combine_results_all_text, List.filterMap_append, List.filterMap_cons]
    cases h : textContrib (k, r) <;> simp [h]
  · rw [combine_results_all_text, List.filterMap_append]
  · intro hk
    have hsc : shapesContrib (k, r) = none := shapesContrib_of_ne (k, r) hk
    have hlc : linesContrib (k, r) = none := linesContrib_of_ne (k, r) hk
    constructor
    · rw [combine_results_shapes, combine_results_shapes, List.filterMap_append,
        List.filterMap_cons, hsc, List.filterMap_append]
    · rw [combine_results_lines, combine_results_lines, List.filterMap_append,
        List.filterMap_cons, hlc, List.filterMap_append]
  · intro hk
    subst hk
    rw [List.map_append, List.map_cons] at hnd
    have hmid := List.nodup_cons.mp (List.nodup_middle.mp hnd)
    have hyall : ∀ p ∈ rs1 ++ rs2, p.1 ≠ "yolo" := by
      intro p hp hpk
      apply hmid.1
      rw [← List.map_append]
      exact hpk ▸ List.mem_map.mpr ⟨p, hp, rfl⟩
    constructor
    · rw [combine_results_shapes,
        List.filterMap_eq_nil_iff.mpr (fun p hp => shapesContrib_of_ne p (hyall p hp))]
      rfl
    · rw [combine_results_lines,
        List.filterMap_eq_nil_iff.mpr (fun p hp => linesContrib_of_ne p (hyall p hp))]
      rfl

/-- C9 witness: with tesseract and yolo both succeeding, toggling yolo to
FAILURE keeps tesseract's text contribution verbatim and merely empties the
shape and line lists. -/
theorem C9_failure_isolation_witness :
    (combine_results ([("tesseract", ({ extracted_text := some "DIM 150mm" } : MethodResult))]
          ++ ("yolo", ({ shapes := some { shapes := some ["circle"] } } : MethodResult)) :: [])).all_text
        = ([("tesseract", ({ extracted_text := some "DIM 150mm" } : MethodResult))]).filterMap textContrib
          ++ ((textContrib ("yolo", ({ shapes := some { shapes := some ["circle"] } } : MethodResult))).toList
            ++ ([] : List (String × MethodResult)).filterMap textContrib)
    ∧ (combine_results ([("tesseract", ({ extracted_text := some "DIM 150mm" } : MethodResult))] ++ [])).all_text
        = ([("tesseract", ({ extracted_text := some "DIM 150mm" } : MethodResult))]).filterMap textContrib
          ++ ([] : List (String × MethodResult)).filterMap textContrib
    ∧ ("yolo" ≠ "yolo" →
        (combine_results ([("tesseract", ({ extracted_text := some "DIM 150mm" } : MethodResult))]
            ++ ("yolo", ({ shapes := some { shapes := some ["circle"] } } : MethodResult)) :: [])).shapes_detected
            = (combine_results ([("tesseract", ({ extracted_text := some "DIM 150mm" } : MethodResult))] ++ [])).shapes_detected
        ∧ (combine_results ([("tesseract", ({ extracted_text := some "DIM 150mm" } : MethodResult))]
            ++ ("yolo", ({ shapes := some { shapes := some ["circle"] } } : MethodResult)) :: [])).lines_detected
            = (combine_results ([("tesseract", ({ extracted_text := some "DIM 150mm" } : MethodResult))] ++ [])).lines_detected)
    ∧ ("yolo" = "yolo" →
        (combine_results ([("tesseract", ({ extracted_text := some "DIM 150mm" } : MethodResult))] ++ [])).shapes_detected = []
        ∧ (combine_results ([("tesseract", ({ extracted_text := some "DIM 150mm" } : MethodResult))] ++ [])).lines_detected = []) :=
  C9_failure_isolation _ _ "yolo" _ (by decide)

/-- A filterMap whose function is total on the list is a map. -/
theorem filterMap_eq_map_of_all {α β : Type} (f : α → Option β) (g : α → β) :
    ∀ l : List α, (∀ x ∈ l, f x = some (g x)) → l.filterMap f = l.map g := by
  intro l
  induction l with
  | nil => intro _; rfl
  | cons e rs ih =>
      intro h
      rw [List.filterMap_cons, h e (List.mem_cons_self e rs), List.map_cons,
        ih (fun x hx => h x (List.mem_cons_of_mem e hx))]

/-- A successful api_results entry contributes its reported confidence if
present, else 0.8 when tokens_used is positive, else 0.6. -/
theorem confContrib_success (a : ApiResult) (ha : a.status = some "success") :
    confContrib a = some (a.confidence.getD
      (if a.tokens_used.getD 0 > 0 then (8 : Rat) / 10 else 6 / 10)) := by
  rw [confContrib, if_pos ha]
  cases hc : a.confidence with
  | some c => simp
  | none => by_cases htk : a.tokens_used.getD 0 > 0 <;> simp [htk]

/-- C4 counterexample: a successful source reporting no explicit
confidence but positive tokens_used contributes 0.8, not the claimed fixed
neutral default 0.6 (and the returned value is the plain mean of the
contributions — no blending with the success rate happens in
_calculate_ocr_confidence). -/
theorem C4_default_confidence_counterexample :
    _calculate_ocr_confidence
        [("openai", { status := some "success", tokens_used := some 10 })] = 8 / 10
    ∧ ((8 : Rat) / 10 ≠ 6 / 10) := by
  constructor
  · simp +decide [_calculate_ocr_confidence, confContrib, List.filterMap_cons]
  · norm_num

/-- C4 amended: every successful source reporting an explicit confidence
contributes that value; a successful source without one contributes 0.8
when it reports tokens_used greater than 0 (AI-based OCR) and 0.6 otherwise;
the overall OCR confidence is the plain arithmetic mean of these
contributions (not a blend with the success rate): on an all-success input
it satisfies confidence times attempts = sum of contributions. -/
theorem C4_confidence_policy_amended (api_results : List (String × ApiResult))
    (hall : ∀ p ∈ api_results, p.2.status = some "success")
    (hne : api_results ≠ []) :
    _calculate_ocr_confidence api_results * (api_results.length : Rat)
      = (api_results.map (fun p => p.2.confidence.getD
          (if p.2.tokens_used.getD 0 > 0 then (8 : Rat) / 10 else 6 / 10))).sum := by
  have hfm : api_results.filterMap (fun p => confContrib p.2)
      = api_results.map (fun p => p.2.confidence.getD
          (if p.2.tokens_used.getD 0 > 0 then (8 : Rat) / 10 else 6 / 10)) :=
    filterMap_eq_map_of_all _ _ api_results (fun p hp => confContrib_success p.2 (hall p hp))
  have hn0 : api_results.length ≠ 0 := fun hh => hne (List.length_eq_zero.mp hh)
  have hnq : (api_results.length : Rat) ≠ 0 := by exact_mod_cast hn0
  simp only [_calculate_ocr_confidence, hfm, List.length_map]
  rw [if_pos (Nat.pos_of_ne_zero hn0)]
  field_simp

/-- C4 amended witness: openai (no confidence, 10 tokens) and tesseract
(confidence 0.9): mean times 2 equals 0.8 plus 0.9. -/
theorem C4_confidence_policy_amended_witness :
    _calculate_ocr_confidence
        [("openai", ({ status := some "success", tokens_used := some 10 } : ApiResult)),
          ("tesseract", ({ status := some "success", confidence := some (9 / 10) } : ApiResult))]
      * (([("openai", ({ status := some "success", tokens_used := some 10 } : ApiResult)),
          ("tesseract", ({ status := some "success", confidence := some (9 / 10) } : ApiResult))] :
            List (String × ApiResult)).length : Rat)
      = (([("openai", ({ status := some "success", tokens_used := some 10 } : ApiResult)),
          ("tesseract", ({ status := some "success", confidence := some (9 / 10) } : ApiResult))] :
            List (String × ApiResult)).map (fun p => p.2.confidence.getD
          (if p.2.tokens_used.getD 0 > 0 then (8 : Rat) / 10 else 6 / 10))).sum :=
  C4_confidence_policy_amended _ (by decide) (by simp)

/-- C3: total-failure degenerate case — when every attempted source fails,
comprehensive_analysis hands combine_results an empty dict and the
aggregated all_text, shapes_detected and lines_detected are all empty;
success_rate is 0; _calculate_ocr_confidence is 0; and with at least one
attempted api and no success, zero detected elements, zero semantic
confidence and zero content richness, _calculate_comprehensive_quality_score
is 0.  All four functions are total: they return these values rather than
raising. -/
theorem C3_total_failure_degenerate
    (s : PipelineSetup) (t tr y g : MethodResult)
    (ht : t.error ≠ none) (htr : tr.error ≠ none) (hy : y.error ≠ none)
    (hg : g.error ≠ none)
    (api : List (String × ApiResult))
    (hfail : ∀ p ∈ api, p.2.status ≠ some "success")
    (d : StructuredData)
    (hq1 : d.total_apis_used.getD 0 > 0)
    (hq2 : d.successful_apis.getD 0 = 0)
    (hq3 : d.total_elements_detected.getD 0 = 0)
    (hq4 : d.average_confidence.getD 0 = 0)
    (hq5 : d.technical_content_richness.getD 0 = 0) :
    (combine_results (pipelineResults s t tr y g)).all_text = []
    ∧ (combine_results (pipelineResults s t tr y g)).shapes_detected = []
    ∧ (combine_results (pipelineResults s t tr y g)).lines_detected = []
    ∧ success_rate api = 0
    ∧ _calculate_ocr_confidence api = 0
    ∧ _calculate_comprehensive_quality_score d = 0 := by
  have hpr : pipelineResults s t tr y g = [] := by
    rw [pipelineResults, if_neg ht, if_neg (fun h => htr h.2), if_neg (fun h => hy h.2),
      if_neg (fun h => hg h.2)]
    rfl
  have hsr : successful_apis api = 0 := by
    rw [successful_apis]
    have hfe : api.filter (fun p => p.2.status == some "success") = [] := by
      rw [List.filter_eq_nil_iff]
      intro p hp
      simp [hfail p hp]
    rw [hfe]
    rfl
  refine ⟨?_, ?_, ?_, ?_, ?_, ?_⟩
  · rw [hpr]; rfl
  · rw [hpr]; rfl
  · rw [hpr]; rfl
  · rw [success_rate]
    split
    · rw [hsr]; norm_num
    · rfl
  · have hcf : api.filterMap (fun p => confContrib p.2) = [] := by
      rw [List.filterMap_eq_nil_iff]
      intro p hp
      rw [confContrib, if_neg (hfail p hp)]
    simp [_calculate_ocr_confidence, hcf]
  · simp [_calculate_comprehensive_quality_score, hq1, hq2, hq3, hq4, hq5]

/-- C3 witness: every source fails, one api attempted without success. -/
theorem C3_total_failure_degenerate_witness :
    (combine_results (pipelineResults ⟨true, true, true⟩ ({ error := some "fail" } : MethodResult)
        ({ error := some "fail" } : MethodResult) ({ error := some "fail" } : MethodResult)
        ({ error := some "fail" } : MethodResult))).all_text = []
    ∧ (combine_results (pipelineResults ⟨true, true, true⟩ ({ error := some "fail" } : MethodResult)
        ({ error := some "fail" } : MethodResult) ({ error := some "fail" } : MethodResult)
        ({ error := some "fail" } : MethodResult))).shapes_detected = []
    ∧ (combine_results (pipelineResults ⟨true, true, true⟩ ({ error := some "fail" } : MethodResult)
        ({ error := some "fail" } : MethodResult) ({ error := some "fail" } : MethodResult)
        ({ error := some "fail" } : MethodResult))).lines_detected = []
    ∧ success_rate [("tesseract", ({ status := some "error" } : ApiResult))] = 0
    ∧ _calculate_ocr_confidence [("tesseract", ({ status := some "error" } : ApiResult))] = 0
    ∧ _calculate_comprehensive_quality_score
        { total_apis_used := some 4, successful_apis := some 0 } = 0 :=
  C3_total_failure_degenerate ⟨true, true, true⟩ _ _ _ _
    (by decide) (by decide) (by decide) (by decide) _ (by decide) _
    (by decide) rfl rfl rfl rfl

end ForgeCAD
